import Mathlib

/-!
Verification of the derived-metrics and aggregation engine of the
test-score tracker (`src/TestSeriesTracker.jsx` and
`src/src/TestSeriesTracker.jsx`).

Modelling conventions (shallow embedding of the JavaScript source):
* JS numbers appearing in this code path are exact decimals; they are
  modelled as rationals `ℚ`.
* `Math.round x` is `⌊x + 1/2⌋` (round half-up towards +∞), which is the
  ECMAScript semantics for finite arguments.
* A form text field holding either the empty string or a numeric string is
  modelled as `Option ℚ` (`none` = empty).  `Number("") = 0` becomes
  `Option.getD 0`; JS truthiness of such a field (`""` falsy, any non-empty
  numeric string — including `"0"` — truthy) becomes `Option.isSome`.
* A JSON field that may be missing, `null`, or a number is also modelled as
  `Option ℚ` with `none` for missing/null: in every import-path use the two
  cases behave identically (`Number(null) = 0` and `Number(undefined) = NaN`
  agree under the guards `|| 0` and `> 0` used by the code).
* String fields that the code reads through `x || default` are modelled as
  `Option String` with `none` for missing/null/empty (all falsy).
* String helpers (`trim`, `toLowerCase`, `includes`, CSV escaping) are
  re-implemented on `List Char` so that they compute inside the kernel.
-/

namespace GateTracker

/-- `Math.round` of ECMAScript on a finite argument: round half-up. -/
def jsRound (q : ℚ) : ℤ := ⌊q + 1/2⌋

/-- `Math.round(x * 100) / 100`: the 2-decimal rounding used throughout the
source (`percentage`, `rankPercentile`, subject averages). -/
def round2 (q : ℚ) : ℚ := (jsRound (q * 100) : ℚ) / 100

/-- `String.prototype.trim` (whitespace at both ends removed). -/
def jsTrim (s : String) : String :=
  String.mk (((s.data.dropWhile Char.isWhitespace).reverse.dropWhile Char.isWhitespace).reverse)

/-- `String.prototype.toLowerCase` (ASCII-faithful). -/
def jsLower (s : String) : String := String.mk (s.data.map Char.toLower)

/-- Does `n` occur as a leading block of `h`? (helper for substring search). -/
def leadBlock : List Char → List Char → Bool
  | [], _ => true
  | _ :: _, [] => false
  | c :: cs, d :: ds => c = d && leadBlock cs ds

/-- Does `n` occur contiguously anywhere in `h`? (helper for `includes`). -/
def occursIn (n : List Char) : List Char → Bool
  | [] => n.isEmpty
  | c :: tl => leadBlock n (c :: tl) || occursIn n tl

/-- `hay.includes(needle)` of JS strings. -/
def jsIncludes (hay needle : String) : Bool := occursIn needle.data hay.data

/-- Numeric value of a decimal digit character. -/
def digitVal (c : Char) : ℕ := c.toNat - 48

/-- `new Date(s)` for a date-only ISO string `YYYY-MM-DD`: `some key` for a
valid date (keys ordered chronologically), `none` for an invalid date
(month lengths are approximated by 31 days; no such date occurs in the
development).  Any other string shape is invalid. -/
def parseDate (s : String) : Option ℕ :=
  match s.data with
  | [y1, y2, y3, y4, h1, m1, m2, h2, d1, d2] =>
    if h1 = '-' ∧ h2 = '-' ∧ y1.isDigit ∧ y2.isDigit ∧ y3.isDigit ∧ y4.isDigit ∧
       m1.isDigit ∧ m2.isDigit ∧ d1.isDigit ∧ d2.isDigit then
      let y := ((digitVal y1 * 10 + digitVal y2) * 10 + digitVal y3) * 10 + digitVal y4
      let m := digitVal m1 * 10 + digitVal m2
      let d := digitVal d1 * 10 + digitVal d2
      if 1 ≤ m ∧ m ≤ 12 ∧ 1 ≤ d ∧ d ≤ 31 then some (y * 10000 + m * 100 + d) else none
    else none
  | _ => none

/-- `new Date(a) < new Date(b)`: JS `<` on dates is false whenever either
side is an invalid date (`NaN` comparison). -/
def jsDateLt (a b : String) : Bool :=
  match parseDate a, parseDate b with
  | some x, some y => decide (x < y)
  | _, _ => false

/-- `new Date(a) > new Date(b)`, with the same `NaN` behaviour. -/
def jsDateGt (a b : String) : Bool :=
  match parseDate a, parseDate b with
  | some x, some y => decide (x > y)
  | _, _ => false

/-- Insert `x` into a list sorted by `le`, before the first element `y` with
`le x y` (helper for the stable sort). -/
def insertSorted {α : Type} (le : α → α → Bool) (x : α) : List α → List α
  | [] => [x]
  | y :: ys => if le x y then x :: y :: ys else y :: insertSorted le x ys

/-- Stable sort by a boolean preorder.  `Array.prototype.sort` with a
comparator that induces a total preorder is stable (ES2019), and every
stable sort agrees on such comparators, so insertion sort is a faithful
model of the `.sort(...)` calls of the source. -/
def stableSort {α : Type} (le : α → α → Bool) : List α → List α
  | [] => []
  | x :: xs => insertSorted le x (stableSort le xs)

/-- `DEFAULT_MULTI_SUBJECT` of the source. -/
def DEFAULT_MULTI_SUBJECT : String := "Multi-Subject/Full Test"

/-- `TEST_CATEGORIES[0]` of the source. -/
def defaultCategory : String := "Topic Wise"

/-- `TEST_PROVIDERS[0]` of the source. -/
def defaultProvider : String := "Ace Academy"

/-- `FULL_TEST_CATEGORIES` of the source. -/
def FULL_TEST_CATEGORIES : List String := ["Multisubject Wise", "Full Length", "Mock"]

/-- A stored test entry, the object built by `handleAddOrUpdate` /
`handleImportJSON` of `src/TestSeriesTracker.jsx`.  Fields that the source
stores as `null`-or-number are `Option ℚ`. -/
structure Entry where
  id : String
  subject : String
  category : String
  provider : String
  maxMarks : ℚ
  obtainedMarks : ℚ
  percentage : ℚ
  correctCount : Option ℚ
  incorrectCount : Option ℚ
  notAttemptedCount : Option ℚ
  testRank : Option ℚ
  totalTestTakers : Option ℚ
  rankPercentile : Option ℚ
  date : String
  notes : String
deriving DecidableEq, Repr

/-- The add/edit form state of `src/TestSeriesTracker.jsx` (`form`).  Numeric
fields are text inputs: `none` models the empty string, `some q` a numeric
string of value `q`.  `id` is `null` (`none`) for a create. -/
structure AddForm where
  id : Option String
  subject : String
  category : String
  provider : String
  maxMarks : Option ℚ
  obtainedMarks : Option ℚ
  correctCount : Option ℚ
  incorrectCount : Option ℚ
  notAttemptedCount : Option ℚ
  testRank : Option ℚ
  totalTestTakers : Option ℚ
  date : String
  notes : String
deriving DecidableEq, Repr

/-- The validation chain of `handleAddOrUpdate` (lines 326-341): the first
toast error message hit, or `none` when every check passes.  `!max || max <= 0`
on `max = Number(field)` is `max ≤ 0`; `hasRank` is the truthiness of both
rank form strings. -/
def validateAdd (f : AddForm) : Option String :=
  if jsTrim f.subject = "" then some "Please enter subject."
  else if f.maxMarks.getD 0 ≤ 0 then some "Max marks should be a positive number."
  else if f.obtainedMarks.getD 0 < 0 then some "Obtained marks should be a non-negative number."
  else if f.obtainedMarks.getD 0 > f.maxMarks.getD 0 then
    some "Obtained marks cannot be greater than Max Marks."
  else if f.correctCount.getD 0 < 0 then some "Correct count must be a non-negative number."
  else if f.incorrectCount.getD 0 < 0 then some "Incorrect count must be a non-negative number."
  else if f.notAttemptedCount.getD 0 < 0 then
    some "Not Attempted count must be a non-negative number."
  else if (f.testRank.isSome ∧ f.totalTestTakers.isSome) ∧ f.testRank.getD 0 ≤ 0 then
    some "Your Rank must be a positive number."
  else if (f.testRank.isSome ∧ f.totalTestTakers.isSome) ∧ f.totalTestTakers.getD 0 ≤ 0 then
    some "Total Test Takers must be a positive number."
  else if (f.testRank.isSome ∧ f.totalTestTakers.isSome) ∧
      f.testRank.getD 0 > f.totalTestTakers.getD 0 then
    some "Your Rank cannot be greater than Total Test Takers."
  else none

/-- The `entry` object literal of `handleAddOrUpdate` (lines 349-368).
`freshId` stands for the `uid()` call, `today` for
`formatDateInput(new Date())`. -/
def mkEntry (freshId today : String) (f : AddForm) : Entry :=
  let max := f.maxMarks.getD 0
  let obt := f.obtainedMarks.getD 0
  let rank := f.testRank.getD 0
  let totalTakers := f.totalTestTakers.getD 0
  let hasRank := f.testRank.isSome ∧ f.totalTestTakers.isSome
  let hasCounts := f.correctCount.isSome ∨ f.incorrectCount.isSome ∨ f.notAttemptedCount.isSome
  { id := f.id.getD freshId
    subject := jsTrim f.subject
    category := f.category
    provider := f.provider
    maxMarks := max
    obtainedMarks := obt
    percentage := if max ≠ 0 then (jsRound (obt / max * 10000) : ℚ) / 100 else 0
    correctCount := if hasCounts then some (f.correctCount.getD 0) else none
    incorrectCount := if hasCounts then some (f.incorrectCount.getD 0) else none
    notAttemptedCount := if hasCounts then some (f.notAttemptedCount.getD 0) else none
    testRank := if hasRank then some rank else none
    totalTestTakers := if hasRank then some totalTakers else none
    rankPercentile := if hasRank then some ((jsRound ((1 - rank / totalTakers) * 10000) : ℚ) / 100) else none
    date := if f.date = "" then today else f.date
    notes := f.notes }

/-- `handleAddOrUpdate` as a result value: the constructed entry, or the
validation toast message on early return. -/
def handleAddOrUpdate (freshId today : String) (f : AddForm) : Except String Entry :=
  match validateAdd f with
  | some msg => .error msg
  | none => .ok (mkEntry freshId today f)

/-- Comparator order of `.sort((a, b) => new Date(b.date) - new Date(a.date))`:
descending by date, entries with unparsable dates treated as ties. -/
def dateDescLe (a b : Entry) : Bool :=
  match parseDate a.date, parseDate b.date with
  | some x, some y => decide (y ≤ x)
  | _, _ => true

/-- The `setTests` update of `handleAddOrUpdate`: replacement when the id
already exists, otherwise prepend and re-sort descending by date.  Returns
the new collection and the toast error, if any. -/
def applyAddOrUpdate (freshId today : String) (f : AddForm) (prev : List Entry) :
    List Entry × Option String :=
  match handleAddOrUpdate freshId today f with
  | .error msg => (prev, some msg)
  | .ok entry =>
    if prev.any (fun p => p.id = entry.id) then
      (prev.map (fun p => if p.id = entry.id then entry else p), none)
    else
      (stableSort dateDescLe (entry :: prev), none)

/-- A record of a parsed JSON import payload, as read by `handleImportJSON`
(lines 434-457).  Only the fields the import reads are modelled; `none`
stands for missing / `null` / non-numeric (resp. falsy for strings), which
behave identically under every guard the code applies. -/
structure RawRecord where
  id : Option String
  subject : Option String
  category : Option String
  provider : Option String
  maxMarks : Option ℚ
  obtainedMarks : Option ℚ
  correctCount : Option ℚ
  incorrectCount : Option ℚ
  notAttemptedCount : Option ℚ
  testRank : Option ℚ
  totalTestTakers : Option ℚ
  date : Option String
  notes : Option String
deriving DecidableEq, Repr

/-- `Number(x) > 0 ? Number(x) : null` of the import path: each of the three
count fields is kept only when strictly positive. -/
def posOrNull (v : Option ℚ) : Option ℚ :=
  match v with
  | some q => if q > 0 then some q else none
  | none => none

/-- The per-record normalisation of `handleImportJSON` (lines 434-457). -/
def importNormalize (freshId today : String) (d : RawRecord) : Entry :=
  let max := d.maxMarks.getD 0
  let obt := d.obtainedMarks.getD 0
  let rank := d.testRank.getD 0
  let totalTakers := d.totalTestTakers.getD 0
  let hasRank := 0 < rank ∧ 0 < totalTakers ∧ rank ≤ totalTakers
  { id := d.id.getD freshId
    subject := d.subject.getD "Unknown"
    category := d.category.getD defaultCategory
    provider := d.provider.getD defaultProvider
    maxMarks := max
    obtainedMarks := obt
    percentage := if max ≠ 0 then (jsRound (obt / max * 10000) : ℚ) / 100 else 0
    correctCount := posOrNull d.correctCount
    incorrectCount := posOrNull d.incorrectCount
    notAttemptedCount := posOrNull d.notAttemptedCount
    testRank := if hasRank then some rank else none
    totalTestTakers := if hasRank then some totalTakers else none
    rankPercentile := if hasRank then some ((jsRound ((1 - rank / totalTakers) * 10000) : ℚ) / 100) else none
    date := d.date.getD today
    notes := d.notes.getD "" }

/-- The JSON image of a stored entry, i.e. the record obtained by
`JSON.parse` of the `JSON.stringify` output of `handleExportJSON`.
`JSON.stringify`/`JSON.parse` round-trip each field exactly; an empty
string field is mapped to `none` because every import access is guarded by
`||` or a numeric comparison, under which `""`, `null` and missing agree. -/
def entryToRaw (e : Entry) : RawRecord :=
  { id := if e.id = "" then none else some e.id
    subject := if e.subject = "" then none else some e.subject
    category := if e.category = "" then none else some e.category
    provider := if e.provider = "" then none else some e.provider
    maxMarks := some e.maxMarks
    obtainedMarks := some e.obtainedMarks
    correctCount := e.correctCount
    incorrectCount := e.incorrectCount
    notAttemptedCount := e.notAttemptedCount
    testRank := e.testRank
    totalTestTakers := e.totalTestTakers
    date := if e.date = "" then none else some e.date
    notes := if e.notes = "" then none else some e.notes }

/-- `handleExportJSON`: `JSON.stringify(tests)`, modelled up to the JSON
text as the list of record images in collection order. -/
def toInterchange (tests : List Entry) : List RawRecord := tests.map entryToRaw

/-- The decode half of `handleImportJSON`: normalise every parsed record,
in order (`data.map`). -/
def fromInterchange (freshId today : String) (records : List RawRecord) : List Entry :=
  records.map (importNormalize freshId today)

/-- A parsed JSON top-level value, with enough shape to distinguish an array
of records from everything else (`Array.isArray`). -/
inductive JVal where
  | jnull : JVal
  | jbool : Bool → JVal
  | jnum : ℚ → JVal
  | jstr : String → JVal
  | jobj : JVal
  | jarr : List RawRecord → JVal
deriving DecidableEq, Repr

/-- The toast message of the non-array import branch (`"Failed to import: "`
plus the thrown message). -/
def importErrorMsg : String :=
  "Failed to import: Invalid file format. Ensure the file is an array of test objects."

/-- `handleImportJSON` at the state level: on an array payload, normalise
each record, prepend to the previous collection and re-sort descending by
date; on any other payload, throw, leaving the collection untouched and
showing the error toast.  Returns the new collection and the error toast,
if any. -/
def handleImportJSON (freshId today : String) (v : JVal) (prev : List Entry) :
    List Entry × Option String :=
  match v with
  | .jarr records =>
    (stableSort dateDescLe (fromInterchange freshId today records ++ prev), none)
  | _ => (prev, some importErrorMsg)

/-- Double every quote character (the `s.replace` regex step of `csvEscape`,
replacing each quote by two quotes). -/
def dubQuotes : List Char → List Char
  | [] => []
  | c :: cs => if c = '"' then '"' :: '"' :: dubQuotes cs else c :: dubQuotes cs

/-- `csvEscape` of the source (lines 88-95), on the string already obtained
from the value (the `val == null` guard is handled at the call sites, which
substitute `""` for falsy optional fields). -/
def csvEscape (s : String) : String :=
  if s.data.contains ',' || s.data.contains '\n' || s.data.contains '"' then
    String.mk ('"' :: (dubQuotes s.data ++ ['"']))
  else s

/-- Decimal digit characters of `n`, most significant first (fuel-based so
that it computes in the kernel). -/
def natDigitsGo : ℕ → ℕ → List Char
  | 0, _ => []
  | fuel + 1, n =>
    if n < 10 then [Char.ofNat (48 + n)]
    else natDigitsGo fuel (n / 10) ++ [Char.ofNat (48 + n % 10)]

/-- Decimal string of a natural number. -/
def natStr (n : ℕ) : String := String.mk (natDigitsGo (n + 1) n)

/-- `String(x)` for the non-negative decimal JS numbers stored in entries:
shortest decimal representation (no exponent form; such magnitudes do not
arise here). -/
def decStr (q : ℚ) : String :=
  let a : ℚ := |q|
  let digits : String :=
    match (List.range 21).find? (fun k => (a * (10 : ℚ) ^ k).den = 1) with
    | some k =>
      let n := (a * (10 : ℚ) ^ k).num.toNat
      if k = 0 then natStr n
      else natStr (n / 10 ^ k) ++ "." ++
        String.mk (List.replicate (k - (natStr (n % 10 ^ k)).length) '0') ++ natStr (n % 10 ^ k)
    | none => "0"
  if q < 0 then "-" ++ digits else digits

/-- A CSV cell for one of the optional numeric fields: the source writes
`t.field || ""`, so `null` and `0` both become the empty cell and any other
value its decimal string. -/
def optCell (v : Option ℚ) : String :=
  match v with
  | none => ""
  | some q => if q = 0 then "" else decStr q

/-- The cell list of one data row of `handleExportCSV` (lines 472-490),
before escaping: column order
`subject, category, provider, maxMarks, obtainedMarks, correctCount,
incorrectCount, notAttemptedCount, percentage, testRank, totalTestTakers,
rankPercentile, date, notes`. -/
def csvCells (t : Entry) : List String :=
  [t.subject, t.category, t.provider, decStr t.maxMarks, decStr t.obtainedMarks,
   optCell t.correctCount, optCell t.incorrectCount, optCell t.notAttemptedCount,
   decStr t.percentage, optCell t.testRank, optCell t.totalTestTakers,
   optCell t.rankPercentile, t.date, t.notes]

/-- One data row of `handleExportCSV`: every cell through `csvEscape`,
joined with commas. -/
def csvRow (t : Entry) : String := String.intercalate "," ((csvCells t).map csvEscape)

/-- The global filter state of the component. -/
structure FilterSpec where
  provider : String
  subject : String
  dateFrom : String
  dateTo : String
  search : String
deriving DecidableEq, Repr

/-- The search predicate shared by the code and the specification: the
search text matched case-insensitively against subject, notes, category and
provider substrings. -/
def searchHit (search : String) (t : Entry) : Bool :=
  let s := jsLower search
  jsIncludes (jsLower t.subject) s || jsIncludes (jsLower t.notes) s ||
    jsIncludes (jsLower t.category) s || jsIncludes (jsLower t.provider) s

/-- `providerFilteredTests` (lines 284-287): `"All"` disables the filter;
otherwise exact match against `t.provider || "Other"`. -/
def providerFilteredTests (spec : FilterSpec) (tests : List Entry) : List Entry :=
  if spec.provider = "All" then tests
  else tests.filter (fun t => (if t.provider = "" then "Other" else t.provider) = spec.provider)

/-- The callback of the `filtered` memo (lines 502-515): early `false`
returns for the subject filter and the date bounds, then the search test. -/
def codeFilterPred (spec : FilterSpec) (t : Entry) : Bool :=
  if spec.subject ≠ "All" ∧ t.subject ≠ spec.subject then false
  else if spec.dateFrom ≠ "" ∧ jsDateLt t.date spec.dateFrom then false
  else if spec.dateTo ≠ "" ∧ jsDateGt t.date spec.dateTo then false
  else if spec.search ≠ "" then searchHit spec.search t
  else true

/-- The `filtered` memo: the provider-filtered collection run through the
remaining predicates. -/
def filteredTests (spec : FilterSpec) (tests : List Entry) : List Entry :=
  (providerFilteredTests spec tests).filter (codeFilterPred spec)

/-- Chronological comparison of two parsed dates, false when either fails to
parse (used by the specification-side filter predicate). -/
def dateKeyLe (a b : String) : Bool :=
  match parseDate a, parseDate b with
  | some x, some y => decide (x ≤ y)
  | _, _ => false

/-- Modelled from the spec (section 4.4) for the refinement comparison of
claim C7: one conjunctive predicate — provider and subject by exact match
with an `"All"` sentinel, inclusive date bounds, case-insensitive substring
search over subject, notes, category and provider. -/
def specFilterPred (spec : FilterSpec) (t : Entry) : Bool :=
  decide ((spec.provider = "All" ∨ t.provider = spec.provider) ∧
    (spec.subject = "All" ∨ t.subject = spec.subject) ∧
    (spec.dateFrom = "" ∨ dateKeyLe spec.dateFrom t.date) ∧
    (spec.dateTo = "" ∨ dateKeyLe t.date spec.dateTo) ∧
    (spec.search = "" ∨ searchHit spec.search t))

/-- A per-subject accumulator entry: subject, percentage sum, count.  The
`bySubject` object of the `summary` memo keyed by subject, in insertion
order. -/
def addToGroups (t : Entry) : List (String × ℚ × ℕ) → List (String × ℚ × ℕ)
  | [] => [(t.subject, t.percentage, 1)]
  | (s, q, c) :: rest =>
    if s = t.subject then (s, q + t.percentage, c + 1) :: rest
    else (s, q, c) :: addToGroups t rest

/-- One iteration of the `for (const t of filtered)` loop of `summary`:
entries with the multi-subject sentinel are skipped. -/
def groupStep (acc : List (String × ℚ × ℕ)) (t : Entry) : List (String × ℚ × ℕ) :=
  if t.subject = DEFAULT_MULTI_SUBJECT then acc else addToGroups t acc

/-- The `bySubject` accumulation of the `summary` memo (lines 524-532). -/
def groupBySubject (l : List Entry) : List (String × ℚ × ℕ) := l.foldl groupStep []

/-- A per-subject average row of `summary.subjectAverages` (the `items`
array, unused by the claims, is omitted). -/
structure SubjAvg where
  subject : String
  avg : ℚ
  count : ℕ
deriving DecidableEq, Repr

/-- `summary.subjectAverages` (lines 534-539): per-group rounded mean and
count, sorted descending by average. -/
def subjectAverages (l : List Entry) : List SubjAvg :=
  stableSort (fun a b => decide (b.avg ≤ a.avg))
    ((groupBySubject l).map (fun g => ⟨g.1, round2 (g.2.1 / (g.2.2 : ℚ)), g.2.2⟩))

/-- `topWeakestSubjects` (lines 576-581): averages below 65, ascending,
first five. -/
def topWeakestSubjects (l : List Entry) : List SubjAvg :=
  (stableSort (fun a b => decide (a.avg ≤ b.avg))
    ((subjectAverages l).filter (fun s => decide (s.avg < 65)))).take 5

/-- The result of the `stats` memo of `src/src/TestSeriesTracker.jsx`
(lines 937-952): `accuracy` is the value before display rounding,
`accuracyFixed1` the numeric value of the rendered `toFixed(1)` string,
`unattempted` the floored difference. -/
structure StatsResult where
  accuracy : ℚ
  accuracyFixed1 : ℚ
  unattempted : ℚ
deriving DecidableEq, Repr

/-- `Number.prototype.toFixed(1)` on an exact decimal: round half away from
zero at the first decimal. -/
def jsToFixed1 (q : ℚ) : ℚ :=
  if q < 0 then -((jsRound (-q * 10) : ℚ) / 10) else (jsRound (q * 10) : ℚ) / 10

/-- The `stats` memo of the entry form in `src/src/TestSeriesTracker.jsx`:
`parseFloat(x) || 0` for correct/wrong (`none` = empty field),
`parseFloat(x) || 65` for the total question count. -/
def statsOf (correct wrong totalQuestions : Option ℚ) : StatsResult :=
  let c := correct.getD 0
  let w := wrong.getD 0
  let tq := match totalQuestions with
    | none => 65
    | some q => if q = 0 then 65 else q
  let attempted := c + w
  let acc := if attempted > 0 then c / attempted * 100 else 0
  let unatt := tq - attempted
  { accuracy := acc
    accuracyFixed1 := jsToFixed1 acc
    unattempted := if unatt ≥ 0 then unatt else 0 }

/-- Lookup of a subject key in the grouping accumulator (proof helper for
the object-keyed `bySubject`). -/
def findGroup (s : String) : List (String × ℚ × ℕ) → Option (ℚ × ℕ)
  | [] => none
  | (s0, q, c) :: rest => if s0 = s then some (q, c) else findGroup s rest

/-- The percentages of the entries of `l` with subject `s`, in order
(specification-side description of one subject group). -/
def subjPercents (l : List Entry) (s : String) : List ℚ :=
  (l.filter (fun t => decide (t.subject = s))).map Entry.percentage

/-- "null or strictly positive": the shape of an optional count field that
survives the import positivity gate unchanged. -/
def optPos (v : Option ℚ) : Prop := ∀ q, v = some q → 0 < q

/-- A well-formed stored entry: the shape of every entity the add path
produces (non-blank string fields, positive maximum marks, derived fields
consistent with the raw fields). -/
def GoodEntry (e : Entry) : Prop :=
  e.id ≠ "" ∧ e.subject ≠ "" ∧ e.category ≠ "" ∧ e.provider ≠ "" ∧ e.date ≠ "" ∧
    0 < e.maxMarks ∧ 0 ≤ e.obtainedMarks ∧
    e.percentage = (jsRound (e.obtainedMarks / e.maxMarks * 10000) : ℚ) / 100 ∧
    ((e.testRank = none ∧ e.totalTestTakers = none ∧ e.rankPercentile = none) ∨
      (∃ r n, e.testRank = some r ∧ e.totalTestTakers = some n ∧ 0 < r ∧ r ≤ n ∧
        e.rankPercentile = some ((jsRound ((1 - r / n) * 10000) : ℚ) / 100)))

/-- Concrete form of scenario 1 of the specification: maxMarks 30,
obtainedMarks 22.5. -/
def c1Form : AddForm :=
  { id := some "t1", subject := "Control Systems", category := "Topic Wise",
    provider := "Ace Academy", maxMarks := some 30, obtainedMarks := some 22.5,
    correctCount := none, incorrectCount := none, notAttemptedCount := none,
    testRank := none, totalTestTakers := none, date := "2026-01-01", notes := "" }

/-- Concrete form of scenario 2 of the specification: testRank 15 of
totalTestTakers 500. -/
def c2Form : AddForm :=
  { id := some "t2", subject := "Control Systems", category := "Mock",
    provider := "Ace Academy", maxMarks := some 100, obtainedMarks := some 50,
    correctCount := none, incorrectCount := none, notAttemptedCount := none,
    testRank := some 15, totalTestTakers := some 500, date := "2026-01-02", notes := "" }

/-- Concrete form of scenario 3 of the specification: obtainedMarks 35
against maxMarks 30. -/
def c3Form : AddForm :=
  { id := some "t3", subject := "Control Systems", category := "Topic Wise",
    provider := "Ace Academy", maxMarks := some 30, obtainedMarks := some 35,
    correctCount := none, incorrectCount := none, notAttemptedCount := none,
    testRank := none, totalTestTakers := none, date := "2026-01-03", notes := "" }

/-- An import record carrying a recorded zero correct count next to a
positive incorrect count. -/
def c4Raw : RawRecord :=
  { id := some "r4", subject := some "Control Systems", category := some "Mock",
    provider := some "Ace Academy", maxMarks := some 100, obtainedMarks := some 50,
    correctCount := some 0, incorrectCount := some 5, notAttemptedCount := some 60,
    testRank := none, totalTestTakers := none, date := some "2026-01-04", notes := none }

/-- A form whose count fields include a recorded zero (the user typed 0 into
the correct-count input). -/
def c5Form : AddForm :=
  { id := some "t5", subject := "Control Systems", category := "Mock",
    provider := "Ace Academy", maxMarks := some 100, obtainedMarks := some 80,
    correctCount := some 0, incorrectCount := some 5, notAttemptedCount := some 60,
    testRank := none, totalTestTakers := none, date := "2026-01-05", notes := "" }

/-- The entry the add path produces from `c5Form`: a valid stored entity
with `correctCount = some 0`. -/
def c5Entry : Entry :=
  { id := "t5", subject := "Control Systems", category := "Mock",
    provider := "Ace Academy", maxMarks := 100, obtainedMarks := 80, percentage := 80,
    correctCount := some 0, incorrectCount := some 5, notAttemptedCount := some 60,
    testRank := none, totalTestTakers := none, rankPercentile := none,
    date := "2026-01-05", notes := "" }

/-- A valid stored entity whose count fields are null (used to witness the
amended round-trip claim). -/
def c5GoodEntry : Entry :=
  { id := "t6", subject := "Digital Circuits", category := "Mock",
    provider := "PrepFusion", maxMarks := 100, obtainedMarks := 80, percentage := 80,
    correctCount := some 40, incorrectCount := some 8, notAttemptedCount := some 17,
    testRank := some 15, totalTestTakers := some 500, rankPercentile := some 97,
    date := "2026-01-06", notes := "revise Nyquist" }

/-- Three Control Systems entries at 40, 60 and 50 percent (scenario 4 of
the specification). -/
def c8List : List Entry :=
  [{ id := "a", subject := "Control Systems", category := "Subjectwise",
     provider := "Ace Academy", maxMarks := 100, obtainedMarks := 40, percentage := 40,
     correctCount := none, incorrectCount := none, notAttemptedCount := none,
     testRank := none, totalTestTakers := none, rankPercentile := none,
     date := "2026-01-01", notes := "" },
   { id := "b", subject := "Control Systems", category := "Subjectwise",
     provider := "Ace Academy", maxMarks := 100, obtainedMarks := 60, percentage := 60,
     correctCount := none, incorrectCount := none, notAttemptedCount := none,
     testRank := none, totalTestTakers := none, rankPercentile := none,
     date := "2026-01-02", notes := "" },
   { id := "c", subject := "Control Systems", category := "Subjectwise",
     provider := "Ace Academy", maxMarks := 100, obtainedMarks := 50, percentage := 50,
     correctCount := none, incorrectCount := none, notAttemptedCount := none,
     testRank := none, totalTestTakers := none, rankPercentile := none,
     date := "2026-01-03", notes := "" }]

/-- A concrete filter specification exercising every predicate. -/
def c7Spec : FilterSpec :=
  { provider := "All", subject := "All", dateFrom := "2026-01-01",
    dateTo := "2026-01-31", search := "control" }

/-- An entry whose optional numeric fields all hold a recorded zero. -/
def c10ZeroEntry : Entry :=
  { id := "z", subject := "Control Systems", category := "Mock",
    provider := "Ace Academy", maxMarks := 100, obtainedMarks := 40, percentage := 40,
    correctCount := some 0, incorrectCount := some 0, notAttemptedCount := some 0,
    testRank := some 0, totalTestTakers := some 0, rankPercentile := some 0,
    date := "2026-01-07", notes := "" }

/-- The same entry with every optional numeric field null instead of 0. -/
def c10NullEntry : Entry :=
  { id := "z", subject := "Control Systems", category := "Mock",
    provider := "Ace Academy", maxMarks := 100, obtainedMarks := 40, percentage := 40,
    correctCount := none, incorrectCount := none, notAttemptedCount := none,
    testRank := none, totalTestTakers := none, rankPercentile := none,
    date := "2026-01-07", notes := "" }

/-! Helper lemmas about the add path. -/

lemma handleAdd_ok_iff (i t : String) (f : AddForm) (e : Entry) :
    handleAddOrUpdate i t f = .ok e ↔ validateAdd f = none ∧ mkEntry i t f = e := by
  unfold handleAddOrUpdate
  cases h : validateAdd f <;> simp

set_option maxHeartbeats 1600000 in
lemma of_validateAdd_eq_none (f : AddForm) (h : validateAdd f = none) :
    jsTrim f.subject ≠ "" ∧ 0 < f.maxMarks.getD 0 ∧ 0 ≤ f.obtainedMarks.getD 0 ∧
      f.obtainedMarks.getD 0 ≤ f.maxMarks.getD 0 ∧ 0 ≤ f.correctCount.getD 0 ∧
      0 ≤ f.incorrectCount.getD 0 ∧ 0 ≤ f.notAttemptedCount.getD 0 ∧
      (f.testRank.isSome ∧ f.totalTestTakers.isSome →
        0 < f.testRank.getD 0 ∧ 0 < f.totalTestTakers.getD 0 ∧
          f.testRank.getD 0 ≤ f.totalTestTakers.getD 0) := by
  unfold validateAdd at h
  split_ifs at h with h1 h2 h3 h4 h5 h6 h7 h8 h9 h10
  push_neg at h2 h3 h4 h5 h6 h7
  refine ⟨h1, h2, h3, h4, h5, h6, h7, fun hr => ?_⟩
  push_neg at h8 h9 h10
  exact ⟨h8 hr, h9 hr, h10 hr⟩

lemma validateAdd_ne_none_of_marks (f : AddForm)
    (hv : f.maxMarks.getD 0 ≤ 0 ∨ f.obtainedMarks.getD 0 < 0 ∨
      f.obtainedMarks.getD 0 > f.maxMarks.getD 0) :
    validateAdd f ≠ none := by
  intro hn
  obtain ⟨-, h2, h3, h4, -⟩ := of_validateAdd_eq_none f hn
  rcases hv with hv | hv | hv <;> linarith

lemma handleAdd_error_exists (f : AddForm) (hv : validateAdd f ≠ none)
    (i t : String) (prev : List Entry) :
    ∃ msg, handleAddOrUpdate i t f = .error msg ∧
      applyAddOrUpdate i t f prev = (prev, some msg) := by
  obtain ⟨m, hm⟩ := Option.ne_none_iff_exists'.mp hv
  exact ⟨m, by simp [handleAddOrUpdate, hm], by simp [applyAddOrUpdate, handleAddOrUpdate, hm]⟩

/-! Helper lemmas about the stable sort. -/

lemma mem_insertSorted {α : Type} (le : α → α → Bool) (x a : α) (l : List α) :
    a ∈ insertSorted le x l ↔ a = x ∨ a ∈ l := by
  induction l with
  | nil => simp [insertSorted]
  | cons y ys ih =>
    simp only [insertSorted]
    split_ifs with h
    · simp [or_comm, or_left_comm, or_assoc]
    · simp [ih]
      tauto

lemma mem_stableSort {α : Type} (le : α → α → Bool) (a : α) (l : List α) :
    a ∈ stableSort le l ↔ a ∈ l := by
  induction l with
  | nil => simp [stableSort]
  | cons x xs ih => simp [stableSort, mem_insertSorted, ih]

lemma length_insertSorted {α : Type} (le : α → α → Bool) (x : α) (l : List α) :
    (insertSorted le x l).length = l.length + 1 := by
  induction l with
  | nil => simp [insertSorted]
  | cons y ys ih =>
    simp only [insertSorted]
    split_ifs with h <;> simp [ih]

lemma length_stableSort {α : Type} (le : α → α → Bool) (l : List α) :
    (stableSort le l).length = l.length := by
  induction l with
  | nil => rfl
  | cons x xs ih => simp [stableSort, length_insertSorted, ih]

lemma pairwise_insertSorted {α : Type} {le : α → α → Bool}
    (htot : ∀ a b, le a b = true ∨ le b a = true)
    (htr : ∀ a b c, le a b = true → le b c = true → le a c = true)
    (x : α) {l : List α} (hl : l.Pairwise (fun a b => le a b = true)) :
    (insertSorted le x l).Pairwise (fun a b => le a b = true) := by
  induction l with
  | nil => simp [insertSorted]
  | cons y ys ih =>
    rw [List.pairwise_cons] at hl
    simp only [insertSorted]
    split_ifs with h
    · refine List.Pairwise.cons ?_ (List.Pairwise.cons hl.1 hl.2)
      intro z hz
      rcases List.mem_cons.mp hz with rfl | hz
      · exact h
      · exact htr x y z h (hl.1 z hz)
    · refine List.Pairwise.cons ?_ (ih hl.2)
      intro z hz
      rcases (mem_insertSorted le x z ys).mp hz with rfl | hz
      · rcases htot z y with hzy | hyz
        · exact absurd hzy h
        · exact hyz
      · exact hl.1 z hz

lemma pairwise_stableSort {α : Type} {le : α → α → Bool}
    (htot : ∀ a b, le a b = true ∨ le b a = true)
    (htr : ∀ a b c, le a b = true → le b c = true → le a c = true)
    (l : List α) :
    (stableSort le l).Pairwise (fun a b => le a b = true) := by
  induction l with
  | nil => simp [stableSort]
  | cons x xs ih => exact pairwise_insertSorted htot htr x ih

/-! Helper lemmas about the subject grouping. -/

lemma findGroup_addToGroups_same (t : Entry) (acc : List (String × ℚ × ℕ)) :
    findGroup t.subject (addToGroups t acc) =
      some (match findGroup t.subject acc with
        | some (q, c) => (q + t.percentage, c + 1)
        | none => (t.percentage, 1)) := by
  induction acc with
  | nil => simp [addToGroups, findGroup]
  | cons g rest ih =>
    obtain ⟨s0, q, c⟩ := g
    by_cases h : s0 = t.subject
    · subst h
      simp [addToGroups, findGroup]
    · simp only [addToGroups, findGroup, if_neg h, ih]

lemma findGroup_addToGroups_ne (s : String) (t : Entry) (h : s ≠ t.subject)
    (acc : List (String × ℚ × ℕ)) :
    findGroup s (addToGroups t acc) = findGroup s acc := by
  have hts : ¬t.subject = s := fun hc => h hc.symm
  induction acc with
  | nil =>
    simp only [addToGroups, findGroup]
    rw [if_neg hts]
  | cons g rest ih =>
    obtain ⟨s0, q, c⟩ := g
    simp only [addToGroups]
    split_ifs with h0
    · have hs0 : ¬s0 = s := by rw [h0]; exact hts
      simp [findGroup, hs0]
    · by_cases hs : s0 = s <;> simp [findGroup, hs, ih]

lemma mem_of_findGroup (s : String) (q : ℚ) (c : ℕ) :
    ∀ gs : List (String × ℚ × ℕ), findGroup s gs = some (q, c) → (s, q, c) ∈ gs := by
  intro gs
  induction gs with
  | nil => simp [findGroup]
  | cons g rest ih =>
    obtain ⟨s0, q0, c0⟩ := g
    by_cases h : s0 = s
    · subst h
      simp only [findGroup, if_pos rfl, Option.some.injEq, Prod.mk.injEq]
      rintro ⟨rfl, rfl⟩
      exact List.mem_cons_self _ _
    · simp only [findGroup, if_neg h]
      intro hf
      exact List.mem_cons_of_mem _ (ih hf)

lemma findGroup_foldl (s : String) (hs : s ≠ DEFAULT_MULTI_SUBJECT) :
    ∀ (l : List Entry) (acc : List (String × ℚ × ℕ)),
      findGroup s (l.foldl groupStep acc) =
        match findGroup s acc with
        | some (q, c) => some (q + (subjPercents l s).sum, c + (subjPercents l s).length)
        | none =>
          if (subjPercents l s).length = 0 then none
          else some ((subjPercents l s).sum, (subjPercents l s).length) := by
  intro l
  induction l with
  | nil =>
    intro acc
    cases h : findGroup s acc with
    | none => simp [h, subjPercents]
    | some v => obtain ⟨q, c⟩ := v; simp [h, subjPercents]
  | cons t ts ih =>
    intro acc
    rw [List.foldl_cons]
    by_cases hts : t.subject = s
    · have hsent : t.subject ≠ DEFAULT_MULTI_SUBJECT := by rw [hts]; exact hs
      have hstep : groupStep acc t = addToGroups t acc := by simp [groupStep, hsent]
      have hsame := findGroup_addToGroups_same t acc
      rw [hts] at hsame
      have hlist : subjPercents (t :: ts) s = t.percentage :: subjPercents ts s := by
        simp [subjPercents, hts]
      rw [hstep, ih, hlist]
      cases hacc : findGroup s acc with
      | none =>
        rw [hacc] at hsame
        simp only at hsame
        rw [hsame]
        simp only [List.sum_cons, List.length_cons]
        rw [if_neg (Nat.succ_ne_zero _)]
        simp only [Option.some.injEq, Prod.mk.injEq]
        refine ⟨?_, ?_⟩ <;> first | rfl | trivial | omega
      | some v =>
        obtain ⟨q, c⟩ := v
        rw [hacc] at hsame
        simp only at hsame
        rw [hsame]
        simp only [List.sum_cons, List.length_cons, Option.some.injEq, Prod.mk.injEq]
        exact ⟨by ring, by omega⟩
    · have hlist : subjPercents (t :: ts) s = subjPercents ts s := by
        simp [subjPercents, hts]
      by_cases hsent : t.subject = DEFAULT_MULTI_SUBJECT
      · have hstep : groupStep acc t = acc := by simp [groupStep, hsent]
        rw [hstep, ih, hlist]
      · have hstep : groupStep acc t = addToGroups t acc := by simp [groupStep, hsent]
        rw [hstep, ih, findGroup_addToGroups_ne s t (fun h => hts h.symm) acc, hlist]

lemma posOrNull_eq_some_iff (x : Option ℚ) (q : ℚ) :
    posOrNull x = some q ↔ x = some q ∧ 0 < q := by
  cases x with
  | none => simp [posOrNull]
  | some v =>
    simp only [posOrNull]
    split_ifs with hv
    · simp only [Option.some.injEq]
      constructor
      · rintro rfl
        exact ⟨rfl, hv⟩
      · rintro ⟨h, -⟩
        exact h
    · simp only [Option.some.injEq]
      constructor
      · intro h
        exact absurd h (by simp)
      · rintro ⟨rfl, hq⟩
        exact absurd hq hv

lemma validateAdd_ne_none_of_rank (f : AddForm) (h1 : f.testRank.isSome)
    (h2 : f.totalTestTakers.isSome)
    (hv : f.testRank.getD 0 ≤ 0 ∨ f.totalTestTakers.getD 0 ≤ 0 ∨
      f.testRank.getD 0 > f.totalTestTakers.getD 0) :
    validateAdd f ≠ none := by
  intro hn
  obtain ⟨-, -, -, -, -, -, -, hr⟩ := of_validateAdd_eq_none f hn
  obtain ⟨ha, hb, hc⟩ := hr ⟨h1, h2⟩
  rcases hv with hv | hv | hv <;> linarith

lemma posOrNull_of_optPos (x : Option ℚ) (hx : optPos x) : posOrNull x = x := by
  cases x with
  | none => rfl
  | some v => simp [posOrNull, hx v rfl]

lemma importNormalize_entryToRaw (i t : String) (e : Entry) (hg : GoodEntry e)
    (hc : optPos e.correctCount) (hic : optPos e.incorrectCount)
    (hnc : optPos e.notAttemptedCount) :
    importNormalize i t (entryToRaw e) = e := by
  obtain ⟨eid, esub, ecat, eprov, emax, eobt, eperc, ecc, eic, enc, etr, ett, erp, edate, enotes⟩ := e
  obtain ⟨hid, hsub, hcat, hprov, hdate, hmax, hobt, hperc, hrank⟩ := hg
  simp only at hid hsub hcat hprov hdate hmax hobt hperc hrank hc hic hnc
  have hnotes : ∀ s : String, (if s = "" then (none : Option String) else some s).getD "" = s := by
    intro s
    by_cases h : s = "" <;> simp [h]
  simp only [importNormalize, entryToRaw, Option.getD_some, if_neg hid, if_neg hsub,
    if_neg hcat, if_neg hprov, if_neg hdate, hnotes,
    posOrNull_of_optPos _ hc, posOrNull_of_optPos _ hic, posOrNull_of_optPos _ hnc]
  rw [if_pos (ne_of_gt hmax), ← hperc]
  rcases hrank with ⟨htr, htt, hrp⟩ | ⟨r, n, htr, htt, hr0, hrn, hrp⟩
  · subst htr htt erp
    norm_num
  · subst htr htt erp
    have hcond : (0 : ℚ) < r ∧ (0 : ℚ) < n ∧ r ≤ n := ⟨hr0, lt_of_lt_of_le hr0 hrn, hrn⟩
    simp only [Option.getD_some, if_pos hcond]

/-! Helper lemmas about the filter layer. -/

lemma jsDateLt_false_iff (a b : String) (ha : (parseDate a).isSome)
    (hb : (parseDate b).isSome) :
    jsDateLt a b = false ↔ dateKeyLe b a = true := by
  obtain ⟨x, hx⟩ := Option.isSome_iff_exists.mp ha
  obtain ⟨y, hy⟩ := Option.isSome_iff_exists.mp hb
  simp only [jsDateLt, dateKeyLe, hx, hy, decide_eq_false_iff_not, decide_eq_true_eq]
  omega

lemma jsDateGt_false_iff (a b : String) (ha : (parseDate a).isSome)
    (hb : (parseDate b).isSome) :
    jsDateGt a b = false ↔ dateKeyLe a b = true := by
  obtain ⟨x, hx⟩ := Option.isSome_iff_exists.mp ha
  obtain ⟨y, hy⟩ := Option.isSome_iff_exists.mp hb
  simp only [jsDateGt, dateKeyLe, hx, hy, decide_eq_false_iff_not, decide_eq_true_eq]
  omega

lemma codeFilterPred_eq_spec (spec : FilterSpec) (t : Entry)
    (hd : (parseDate t.date).isSome)
    (hf : spec.dateFrom = "" ∨ (parseDate spec.dateFrom).isSome)
    (hto : spec.dateTo = "" ∨ (parseDate spec.dateTo).isSome) :
    codeFilterPred spec t =
      decide ((spec.subject = "All" ∨ t.subject = spec.subject) ∧
        (spec.dateFrom = "" ∨ dateKeyLe spec.dateFrom t.date = true) ∧
        (spec.dateTo = "" ∨ dateKeyLe t.date spec.dateTo = true) ∧
        (spec.search = "" ∨ searchHit spec.search t = true)) := by
  unfold codeFilterPred
  split_ifs with h1 h2 h3 h4
  · symm
    rw [decide_eq_false_iff_not]
    rintro ⟨hsub, -, -, -⟩
    rcases hsub with hs | hs
    · exact h1.1 hs
    · exact h1.2 hs
  · symm
    rw [decide_eq_false_iff_not]
    rintro ⟨-, hfrom, -, -⟩
    rcases hfrom with hs | hs
    · exact h2.1 hs
    · have hfs : (parseDate spec.dateFrom).isSome := hf.resolve_left h2.1
      have := (jsDateLt_false_iff t.date spec.dateFrom hd hfs).mpr hs
      rw [this] at h2
      exact Bool.false_ne_true h2.2
  · symm
    rw [decide_eq_false_iff_not]
    rintro ⟨-, -, htoc, -⟩
    rcases htoc with hs | hs
    · exact h3.1 hs
    · have hts : (parseDate spec.dateTo).isSome := hto.resolve_left h3.1
      have := (jsDateGt_false_iff t.date spec.dateTo hd hts).mpr hs
      rw [this] at h3
      exact Bool.false_ne_true h3.2
  all_goals
    have hsub : spec.subject = "All" ∨ t.subject = spec.subject := by
      by_cases hA : spec.subject = "All"
      · exact Or.inl hA
      · by_cases hB : t.subject = spec.subject
        · exact Or.inr hB
        · exact absurd ⟨hA, hB⟩ h1
  all_goals
    have hfrom : spec.dateFrom = "" ∨ dateKeyLe spec.dateFrom t.date = true := by
      by_cases hA : spec.dateFrom = ""
      · exact Or.inl hA
      · refine Or.inr ((jsDateLt_false_iff t.date spec.dateFrom hd (hf.resolve_left hA)).mp ?_)
        by_cases hB : jsDateLt t.date spec.dateFrom = true
        · exact absurd ⟨hA, hB⟩ h2
        · exact Bool.eq_false_iff.mpr hB
  all_goals
    have htoc : spec.dateTo = "" ∨ dateKeyLe t.date spec.dateTo = true := by
      by_cases hA : spec.dateTo = ""
      · exact Or.inl hA
      · refine Or.inr ((jsDateGt_false_iff t.date spec.dateTo hd (hto.resolve_left hA)).mp ?_)
        by_cases hB : jsDateGt t.date spec.dateTo = true
        · exact absurd ⟨hA, hB⟩ h3
        · exact Bool.eq_false_iff.mpr hB
  · cases hsh : searchHit spec.search t
    · symm
      rw [decide_eq_false_iff_not]
      rintro ⟨-, -, -, hsearch⟩
      rcases hsearch with hs | hs
      · exact h4 hs
      · exact Bool.false_ne_true hs
    · exact (decide_eq_true ⟨hsub, hfrom, htoc, Or.inr rfl⟩).symm
  · have hse : spec.search = "" := by
      by_cases hA : spec.search = ""
      · exact hA
      · exact absurd hA h4
    exact (decide_eq_true ⟨hsub, hfrom, htoc, Or.inl hse⟩).symm

lemma length_le_dubQuotes (l : List Char) : l.length ≤ (dubQuotes l).length := by
  induction l with
  | nil => simp [dubQuotes]
  | cons c cs ih =>
    simp only [dubQuotes]
    split_ifs with h <;> simp only [List.length_cons] <;> omega

/-! The claim theorems. -/

/-- C1: every entity produced by the add/update path with `maxMarks > 0` and
`0 ≤ obtainedMarks ≤ maxMarks`, and every entity produced by the import
normalisation with positive maximum marks, stores
`percentage = round(obtained / max * 10000) / 100` with round half-up
(`jsRound q = ⌊q + 1/2⌋`); in particular maxMarks 30 with obtainedMarks 22.5
yields percentage 75.00. -/
theorem C1_percentage_scaled_rounding :
    (∀ (i t : String) (f : AddForm) (e : Entry), handleAddOrUpdate i t f = .ok e →
      0 < e.maxMarks → 0 ≤ e.obtainedMarks → e.obtainedMarks ≤ e.maxMarks →
      e.percentage = (jsRound (e.obtainedMarks / e.maxMarks * 10000) : ℚ) / 100) ∧
    (∀ (i t : String) (d : RawRecord) (m : ℚ), d.maxMarks = some m → 0 < m →
      (importNormalize i t d).percentage =
        (jsRound ((importNormalize i t d).obtainedMarks /
          (importNormalize i t d).maxMarks * 10000) : ℚ) / 100) ∧
    (handleAddOrUpdate "u" "2026-01-01" c1Form).map Entry.percentage = .ok 75 := by
  refine ⟨?_, ?_, ?_⟩
  · intro i t f e hok hm _ _
    obtain ⟨hv, he⟩ := (handleAdd_ok_iff i t f e).mp hok
    subst he
    simp only [mkEntry] at hm ⊢
    rw [if_pos (ne_of_gt hm)]
  · intro i t d m hd hm
    simp only [importNormalize, hd, Option.getD_some] at hm ⊢
    rw [if_pos (ne_of_gt hm)]
  · have hs : ¬(jsTrim c1Form.subject = "") := by decide
    have hv : validateAdd c1Form = none := by
      unfold validateAdd
      rw [if_neg hs]
      norm_num [c1Form]
    simp only [handleAddOrUpdate, hv, Except.map]
    simp only [mkEntry, c1Form]
    norm_num [jsRound]

/-- C1 witness: the general parts of the theorem applied at the concrete
form of scenario 1. -/
theorem C1_percentage_scaled_rounding_witness :
    (mkEntry "u" "2026-01-01" c1Form).percentage =
      (jsRound ((mkEntry "u" "2026-01-01" c1Form).obtainedMarks /
        (mkEntry "u" "2026-01-01" c1Form).maxMarks * 10000) : ℚ) / 100 := by
  have h := C1_percentage_scaled_rounding.1 "u" "2026-01-01" c1Form
    (mkEntry "u" "2026-01-01" c1Form)
  refine h ?_ ?_ ?_ ?_
  · have hs : ¬(jsTrim c1Form.subject = "") := by decide
    unfold handleAddOrUpdate validateAdd
    rw [if_neg hs]
    norm_num [c1Form]
  · simp only [mkEntry, c1Form]
    norm_num
  · simp only [mkEntry, c1Form]
    norm_num
  · simp only [mkEntry, c1Form]
    norm_num

/-- C2: on every entity-creation path, a stored rank pair `r` of `n` (with
`1 ≤ r ≤ n`) yields `rankPercentile = round((1 - r/n) * 10000) / 100`, and
an absent rank pair yields `rankPercentile = null` (not 0); in particular
testRank 15 of totalTestTakers 500 yields 97.00. -/
theorem C2_rank_percentile :
    (∀ (i t : String) (f : AddForm) (e : Entry) (r n : ℚ),
      handleAddOrUpdate i t f = .ok e → e.testRank = some r → e.totalTestTakers = some n →
      1 ≤ r → r ≤ n →
      e.rankPercentile = some ((jsRound ((1 - r / n) * 10000) : ℚ) / 100)) ∧
    (∀ (i t : String) (f : AddForm) (e : Entry), handleAddOrUpdate i t f = .ok e →
      e.testRank = none → e.totalTestTakers = none → e.rankPercentile = none) ∧
    (∀ (i t : String) (d : RawRecord) (r n : ℚ),
      d.testRank = some r → d.totalTestTakers = some n → 1 ≤ r → r ≤ n →
      (importNormalize i t d).rankPercentile =
        some ((jsRound ((1 - r / n) * 10000) : ℚ) / 100)) ∧
    (∀ (i t : String) (d : RawRecord), d.testRank = none →
      (importNormalize i t d).rankPercentile = none) ∧
    (handleAddOrUpdate "u" "2026-01-02" c2Form).map Entry.rankPercentile = .ok (some 97) := by
  refine ⟨?_, ?_, ?_, ?_, ?_⟩
  · intro i t f e r n hok hr hn _ _
    obtain ⟨hv, he⟩ := (handleAdd_ok_iff i t f e).mp hok
    subst he
    simp only [mkEntry] at hr hn ⊢
    by_cases h : f.testRank.isSome ∧ f.totalTestTakers.isSome
    · rw [if_pos h] at hr hn
      rw [if_pos h]
      obtain rfl : f.testRank.getD 0 = r := Option.some.inj hr
      obtain rfl : f.totalTestTakers.getD 0 = n := Option.some.inj hn
      rfl
    · rw [if_neg h] at hr
      exact absurd hr (by simp)
  · intro i t f e hok hr _
    obtain ⟨hv, he⟩ := (handleAdd_ok_iff i t f e).mp hok
    subst he
    simp only [mkEntry] at hr ⊢
    by_cases h : f.testRank.isSome ∧ f.totalTestTakers.isSome
    · rw [if_pos h] at hr
      exact absurd hr (by simp)
    · rw [if_neg h]
  · intro i t d r n hr hn h1 hrn
    have h0 : (0 : ℚ) < r := lt_of_lt_of_le one_pos h1
    simp only [importNormalize, hr, hn, Option.getD_some]
    rw [if_pos ⟨h0, lt_of_lt_of_le h0 hrn, hrn⟩]
  · intro i t d hr
    simp only [importNormalize, hr, Option.getD_none]
    rw [if_neg (by simp)]
  · have hs : ¬(jsTrim c2Form.subject = "") := by decide
    have hv : validateAdd c2Form = none := by
      unfold validateAdd
      rw [if_neg hs]
      norm_num [c2Form]
    simp only [handleAddOrUpdate, hv, Except.map]
    simp only [mkEntry, c2Form]
    norm_num [jsRound]

/-- C2 witness: the import-path parts of the theorem applied to a concrete
record with rank 15 of 500 and to one with a null rank. -/
theorem C2_rank_percentile_witness :
    (importNormalize "u" "2026-01-02" (entryToRaw c5GoodEntry)).rankPercentile =
        some ((jsRound ((1 - (15 : ℚ) / 500) * 10000) : ℚ) / 100) ∧
      (importNormalize "u" "2026-01-02" (entryToRaw c5Entry)).rankPercentile = none := by
  constructor
  · refine C2_rank_percentile.2.2.1 "u" "2026-01-02" _ 15 500 ?_ ?_ ?_ ?_
    · rfl
    · rfl
    · norm_num
    · norm_num
  · refine C2_rank_percentile.2.2.2.1 "u" "2026-01-02" _ ?_
    rfl

/-- C3: every entity the add path produces satisfies
`0 ≤ obtainedMarks ≤ maxMarks` with `maxMarks > 0`, and its rank fields are
both null or satisfy `1 ≤ testRank ≤ totalTestTakers` (the rank inputs are
integer-stepped number inputs, so their values are whole numbers — the
integrality hypothesis below); a raw input whose marks or present rank pair
violate the constraints is rejected with a field-specific toast message and
the collection is left unchanged; in particular obtainedMarks 35 with
maxMarks 30 is rejected with the obtained-marks message. -/
theorem C3_normalize_invariants :
    (∀ (i t : String) (f : AddForm) (e : Entry), handleAddOrUpdate i t f = .ok e →
      (∀ q, f.testRank = some q → ∃ k : ℤ, q = (k : ℚ)) →
      0 < e.maxMarks ∧ 0 ≤ e.obtainedMarks ∧ e.obtainedMarks ≤ e.maxMarks ∧
        ((e.testRank = none ∧ e.totalTestTakers = none) ∨
          ∃ r n, e.testRank = some r ∧ e.totalTestTakers = some n ∧ 1 ≤ r ∧ r ≤ n)) ∧
    (∀ (i t : String) (f : AddForm) (prev : List Entry),
      f.maxMarks.getD 0 ≤ 0 ∨ f.obtainedMarks.getD 0 < 0 ∨
        f.obtainedMarks.getD 0 > f.maxMarks.getD 0 →
      ∃ msg, handleAddOrUpdate i t f = .error msg ∧
        applyAddOrUpdate i t f prev = (prev, some msg)) ∧
    (∀ (i t : String) (f : AddForm) (prev : List Entry),
      f.testRank.isSome → f.totalTestTakers.isSome →
      f.testRank.getD 0 ≤ 0 ∨ f.totalTestTakers.getD 0 ≤ 0 ∨
        f.testRank.getD 0 > f.totalTestTakers.getD 0 →
      ∃ msg, handleAddOrUpdate i t f = .error msg ∧
        applyAddOrUpdate i t f prev = (prev, some msg)) ∧
    (∀ prev, applyAddOrUpdate "u" "2026-01-03" c3Form prev =
      (prev, some "Obtained marks cannot be greater than Max Marks.")) := by
  refine ⟨?_, ?_, ?_, ?_⟩
  · intro i t f e hok hint
    obtain ⟨hv, he⟩ := (handleAdd_ok_iff i t f e).mp hok
    obtain ⟨-, h2, h3, h4, -, -, -, hr⟩ := of_validateAdd_eq_none f hv
    subst he
    simp only [mkEntry]
    refine ⟨h2, h3, h4, ?_⟩
    by_cases h : f.testRank.isSome ∧ f.totalTestTakers.isSome
    · obtain ⟨hra, hrb, hrc⟩ := hr h
      obtain ⟨q, hq⟩ := Option.isSome_iff_exists.mp h.1
      obtain ⟨k, hk⟩ := hint q hq
      have hgd : f.testRank.getD 0 = q := by rw [hq]; rfl
      refine Or.inr ⟨f.testRank.getD 0, f.totalTestTakers.getD 0,
        by rw [if_pos h], by rw [if_pos h], ?_, hrc⟩
      rw [hgd, hk]
      rw [hgd, hk] at hra
      have : (0 : ℤ) < k := by exact_mod_cast hra
      exact_mod_cast this
    · exact Or.inl ⟨by rw [if_neg h], by rw [if_neg h]⟩
  · intro i t f prev hv
    exact handleAdd_error_exists f (validateAdd_ne_none_of_marks f hv) i t prev
  · intro i t f prev h1 h2 hv
    exact handleAdd_error_exists f (validateAdd_ne_none_of_rank f h1 h2 hv) i t prev
  · intro prev
    have hs : ¬(jsTrim c3Form.subject = "") := by decide
    have hv : validateAdd c3Form = some "Obtained marks cannot be greater than Max Marks." := by
      unfold validateAdd
      rw [if_neg hs]
      norm_num [c3Form]
    simp [applyAddOrUpdate, handleAddOrUpdate, hv]

/-- C3 witness: the invariants instantiated on the entry built from the
concrete form with rank 15 of 500, and the rejection instantiated at the
concrete overweight form. -/
theorem C3_normalize_invariants_witness :
    (0 < (mkEntry "u" "2026-01-02" c2Form).maxMarks ∧
      0 ≤ (mkEntry "u" "2026-01-02" c2Form).obtainedMarks ∧
      (mkEntry "u" "2026-01-02" c2Form).obtainedMarks ≤ (mkEntry "u" "2026-01-02" c2Form).maxMarks ∧
      (((mkEntry "u" "2026-01-02" c2Form).testRank = none ∧
          (mkEntry "u" "2026-01-02" c2Form).totalTestTakers = none) ∨
        ∃ r n, (mkEntry "u" "2026-01-02" c2Form).testRank = some r ∧
          (mkEntry "u" "2026-01-02" c2Form).totalTestTakers = some n ∧ 1 ≤ r ∧ r ≤ n)) ∧
    (∃ msg, handleAddOrUpdate "u" "2026-01-03" c3Form = .error msg ∧
      applyAddOrUpdate "u" "2026-01-03" c3Form [] = ([], some msg)) := by
  constructor
  · refine C3_normalize_invariants.1 "u" "2026-01-02" c2Form _ ?_ ?_
    · have hs : ¬(jsTrim c2Form.subject = "") := by decide
      unfold handleAddOrUpdate validateAdd
      rw [if_neg hs]
      norm_num [c2Form]
    · intro q hq
      exact ⟨15, by simpa [c2Form] using hq.symm⟩
  · refine C3_normalize_invariants.2.1 "u" "2026-01-03" c3Form [] ?_
    right
    right
    norm_num [c3Form]

/-- C4 counterexample: on the import path a recorded zero is not kept
distinct from null, and the triple is not stored as a unit — importing a
record with `correctCount = 0` and `incorrectCount = 5` stores
`correctCount = null` next to `incorrectCount = 5`. -/
theorem C4_counts_unit_counterexample :
    c4Raw.correctCount = some 0 ∧
      (importNormalize "u" "2026-01-04" c4Raw).correctCount = none ∧
      (importNormalize "u" "2026-01-04" c4Raw).incorrectCount = some 5 := by
  refine ⟨rfl, ?_, ?_⟩ <;> simp [importNormalize, posOrNull, c4Raw]

/-- C4 (amended): on the add/update path the count triple is stored as a
unit — all three null when no raw count field is supplied, all three
numeric (zero kept distinct from null) as soon as any is supplied; on
the import path each field is gated independently: it is stored exactly
when its raw value is strictly positive, so a recorded zero becomes null
there. -/
theorem C4_counts_unit_amended :
    (∀ (i t : String) (f : AddForm) (e : Entry), handleAddOrUpdate i t f = .ok e →
      (f.correctCount = none ∧ f.incorrectCount = none ∧ f.notAttemptedCount = none →
        e.correctCount = none ∧ e.incorrectCount = none ∧ e.notAttemptedCount = none) ∧
      (f.correctCount.isSome ∨ f.incorrectCount.isSome ∨ f.notAttemptedCount.isSome →
        e.correctCount = some (f.correctCount.getD 0) ∧
          e.incorrectCount = some (f.incorrectCount.getD 0) ∧
          e.notAttemptedCount = some (f.notAttemptedCount.getD 0))) ∧
    (∀ (i t : String) (d : RawRecord) (q : ℚ),
      ((importNormalize i t d).correctCount = some q ↔ d.correctCount = some q ∧ 0 < q) ∧
      ((importNormalize i t d).incorrectCount = some q ↔ d.incorrectCount = some q ∧ 0 < q) ∧
      ((importNormalize i t d).notAttemptedCount = some q ↔
        d.notAttemptedCount = some q ∧ 0 < q)) := by
  constructor
  · intro i t f e hok
    obtain ⟨hv, he⟩ := (handleAdd_ok_iff i t f e).mp hok
    subst he
    constructor
    · rintro ⟨h1, h2, h3⟩
      simp [mkEntry, h1, h2, h3]
    · intro h
      simp [mkEntry, h]
  · intro i t d q
    refine ⟨?_, ?_, ?_⟩ <;>
      simp only [importNormalize] <;> exact posOrNull_eq_some_iff _ q

/-- C4 witness: the amended claim applied to the concrete form with a
recorded zero correct count and to the concrete import record. -/
theorem C4_counts_unit_amended_witness :
    ((mkEntry "u" "2026-01-05" c5Form).correctCount = some 0 ∧
      (mkEntry "u" "2026-01-05" c5Form).incorrectCount = some 5 ∧
      (mkEntry "u" "2026-01-05" c5Form).notAttemptedCount = some 60) ∧
    ¬((importNormalize "u" "2026-01-04" c4Raw).correctCount = some 0) := by
  constructor
  · have hs : ¬(jsTrim c5Form.subject = "") := by decide
    have hok : handleAddOrUpdate "u" "2026-01-05" c5Form = .ok (mkEntry "u" "2026-01-05" c5Form) := by
      unfold handleAddOrUpdate validateAdd
      rw [if_neg hs]
      norm_num [c5Form]
    have h := (C4_counts_unit_amended.1 "u" "2026-01-05" c5Form _ hok).2
      (Or.inl (by simp [c5Form]))
    simpa [c5Form] using h
  · intro hc
    have h := (C4_counts_unit_amended.2 "u" "2026-01-04" c4Raw 0).1.mp hc
    exact absurd h.2 (by norm_num)

/-- C5 counterexample: a valid entity produced by the add path with a
recorded zero correct count does not survive the export/import round trip —
the zero comes back as null. -/
theorem C5_roundtrip_counterexample :
    handleAddOrUpdate "t5fresh" "2026-01-05" c5Form = .ok c5Entry ∧
      fromInterchange "u" "2026-01-05" (toInterchange [c5Entry]) ≠ [c5Entry] := by
  constructor
  · have hs : ¬(jsTrim c5Form.subject = "") := by decide
    have hv : validateAdd c5Form = none := by
      unfold validateAdd
      rw [if_neg hs]
      norm_num [c5Form]
    have htrim : jsTrim "Control Systems" = "Control Systems" := by decide
    simp only [handleAddOrUpdate, hv]
    simp only [mkEntry, c5Form, c5Entry, htrim]
    norm_num [jsRound]
  · intro h
    have hmap := congrArg (List.map Entry.correctCount) h
    simp only [fromInterchange, toInterchange, List.map_map, List.map_cons, List.map_nil,
      Function.comp_apply] at hmap
    rw [List.cons.injEq] at hmap
    have h0 : (importNormalize "u" "2026-01-05" (entryToRaw c5Entry)).correctCount = none := by
      simp only [importNormalize, entryToRaw, posOrNull, c5Entry]
      norm_num
    rw [h0] at hmap
    exact Option.noConfusion hmap.1

/-- C5 (amended): the export/import round trip restores every collection of
valid entities field for field, including null fields, provided every
optional count field is null or strictly positive; a recorded zero count is
instead turned into null by the import (see the counterexample). -/
theorem C5_roundtrip_amended (i t : String) (C : List Entry)
    (h : ∀ e ∈ C, GoodEntry e ∧ optPos e.correctCount ∧ optPos e.incorrectCount ∧
      optPos e.notAttemptedCount) :
    fromInterchange i t (toInterchange C) = C := by
  unfold fromInterchange toInterchange
  rw [List.map_map]
  have hcong : ∀ e ∈ C, (importNormalize i t ∘ entryToRaw) e = id e := by
    intro e he
    obtain ⟨hg, hc, hic, hnc⟩ := h e he
    simpa using importNormalize_entryToRaw i t e hg hc hic hnc
  rw [List.map_congr_left hcong, List.map_id]

/-- C5 witness: the amended round trip applied to a concrete singleton
collection of one valid entity. -/
theorem C5_roundtrip_amended_witness :
    fromInterchange "u" "2026-01-06" (toInterchange [c5GoodEntry]) = [c5GoodEntry] := by
  refine C5_roundtrip_amended "u" "2026-01-06" [c5GoodEntry] ?_
  intro e he
  rw [List.mem_singleton] at he
  subst he
  refine ⟨⟨?_, ?_, ?_, ?_, ?_, ?_, ?_, ?_, ?_⟩, ?_, ?_, ?_⟩
  · decide
  · decide
  · decide
  · decide
  · decide
  · norm_num [c5GoodEntry]
  · norm_num [c5GoodEntry]
  · show (80 : ℚ) = (jsRound ((80 : ℚ) / 100 * 10000) : ℚ) / 100
    norm_num [jsRound]
  · refine Or.inr ⟨15, 500, rfl, rfl, by norm_num, by norm_num, ?_⟩
    show some (97 : ℚ) = some ((jsRound ((1 - (15 : ℚ) / 500) * 10000) : ℚ) / 100)
    norm_num [jsRound]
  · intro q hq
    obtain rfl : (40 : ℚ) = q := Option.some.inj hq
    norm_num
  · intro q hq
    obtain rfl : (8 : ℚ) = q := Option.some.inj hq
    norm_num
  · intro q hq
    obtain rfl : (17 : ℚ) = q := Option.some.inj hq
    norm_num

/-- C6: an import payload whose top-level value is not an array fails with
the import error toast, zero records are written, and the existing
collection is returned unchanged. -/
theorem C6_import_rejects_non_array (i t : String) (v : JVal) (prev : List Entry)
    (h : ∀ records, v ≠ .jarr records) :
    handleImportJSON i t v prev = (prev, some importErrorMsg) := by
  cases v with
  | jarr records => exact absurd rfl (h records)
  | jnull => rfl
  | jbool b => rfl
  | jnum q => rfl
  | jstr s => rfl
  | jobj => rfl

/-- C6 witness: importing a JSON object over a one-element collection
errors and leaves the collection unchanged. -/
theorem C6_import_rejects_non_array_witness :
    handleImportJSON "u" "2026-01-06" .jobj [c5GoodEntry] =
      ([c5GoodEntry], some importErrorMsg) :=
  C6_import_rejects_non_array "u" "2026-01-06" .jobj [c5GoodEntry]
    (fun _ hr => JVal.noConfusion hr)

/-- C7: filtering preserves the relative order of the input (the result is
a sublist, and the model is pure, so the input collection is untouched),
and it applies exactly the conjunction of the specified predicates —
provider and subject by exact match with the `"All"` sentinel meaning no
filter, date bounds inclusive on both ends, and the search text matched
case-insensitively against subject, notes, category and provider
substrings — whenever providers are non-blank and the dates involved are
well-formed. -/
theorem C7_filter_conjunctive_order_preserving :
    (∀ (spec : FilterSpec) (tests : List Entry), (filteredTests spec tests).Sublist tests) ∧
    (∀ (spec : FilterSpec) (tests : List Entry),
      (∀ t ∈ tests, t.provider ≠ "" ∧ (parseDate t.date).isSome) →
      (spec.dateFrom = "" ∨ (parseDate spec.dateFrom).isSome) →
      (spec.dateTo = "" ∨ (parseDate spec.dateTo).isSome) →
      filteredTests spec tests = tests.filter (specFilterPred spec)) := by
  constructor
  · intro spec tests
    unfold filteredTests providerFilteredTests
    split_ifs with hAll
    · exact List.filter_sublist tests
    · exact (List.filter_sublist _).trans (List.filter_sublist tests)
  · intro spec tests h hf hto
    by_cases hAll : spec.provider = "All"
    · simp only [filteredTests, providerFilteredTests, if_pos hAll]
      refine List.filter_congr ?_
      intro t ht
      rw [codeFilterPred_eq_spec spec t (h t ht).2 hf hto]
      unfold specFilterPred
      rw [decide_eq_decide]
      constructor
      · rintro ⟨ha, hb, hc, hd2⟩
        exact ⟨Or.inl hAll, ha, hb, hc, hd2⟩
      · rintro ⟨-, ha, hb, hc, hd2⟩
        exact ⟨ha, hb, hc, hd2⟩
    · simp only [filteredTests, providerFilteredTests, if_neg hAll]
      rw [List.filter_filter]
      refine List.filter_congr ?_
      intro t ht
      rw [codeFilterPred_eq_spec spec t (h t ht).2 hf hto, if_neg (h t ht).1, ← Bool.decide_and]
      unfold specFilterPred
      rw [decide_eq_decide]
      constructor
      · rintro ⟨⟨ha, hb, hc, hd2⟩, hp⟩
        exact ⟨Or.inr hp, ha, hb, hc, hd2⟩
      · rintro ⟨hp, ha, hb, hc, hd2⟩
        refine ⟨⟨ha, hb, hc, hd2⟩, ?_⟩
        rcases hp with hp | hp
        · exact absurd hp hAll
        · exact hp

/-- C7 witness: the conjunctive-filter equation instantiated at a concrete
specification and the three-entry collection. -/
theorem C7_filter_conjunctive_order_preserving_witness :
    filteredTests c7Spec c8List = c8List.filter (specFilterPred c7Spec) := by
  refine C7_filter_conjunctive_order_preserving.2 c7Spec c8List ?_ ?_ ?_
  · intro t ht
    simp only [c8List, List.mem_cons, List.not_mem_nil, or_false] at ht
    rcases ht with rfl | rfl | rfl <;> exact ⟨by decide, by decide⟩
  · right
    decide
  · right
    decide

/-- C8: subject aggregation groups entries by subject excluding the
multi-subject sentinel and computes, per group, the rounded mean of the
percentages and the count (part 6); the top-scoring list is sorted
descending by average (part 1); the weakest list is sorted ascending
(part 2), contains only groups with average below 65 (part 3), is capped at
five entries (part 4), and contains every qualifying group when at most
five qualify (part 5); in particular three Control Systems entries at
40, 60 and 50 percent give the single group with average 50.00 and count 3,
which appears in the weakest list. -/
theorem C8_subject_aggregation :
    (∀ l : List Entry,
      (subjectAverages l).Pairwise (fun a b => b.avg ≤ a.avg) ∧
      (topWeakestSubjects l).Pairwise (fun a b => a.avg ≤ b.avg) ∧
      (∀ x ∈ topWeakestSubjects l, x.avg < 65) ∧
      (topWeakestSubjects l).length ≤ 5 ∧
      (((subjectAverages l).filter (fun s => decide (s.avg < 65))).length ≤ 5 →
        ∀ x ∈ subjectAverages l, x.avg < 65 → x ∈ topWeakestSubjects l) ∧
      (∀ s : String, s ≠ DEFAULT_MULTI_SUBJECT → subjPercents l s ≠ [] →
        (⟨s, round2 ((subjPercents l s).sum / ((subjPercents l s).length : ℚ)),
          (subjPercents l s).length⟩ : SubjAvg) ∈ subjectAverages l)) ∧
    (subjectAverages c8List = [⟨"Control Systems", 50, 3⟩] ∧
      topWeakestSubjects c8List = [⟨"Control Systems", 50, 3⟩]) := by
  have htotD : ∀ a b : SubjAvg, decide (b.avg ≤ a.avg) = true ∨ decide (a.avg ≤ b.avg) = true := by
    intro a b
    rcases le_total b.avg a.avg with h | h
    · exact Or.inl (decide_eq_true h)
    · exact Or.inr (decide_eq_true h)
  have htrD : ∀ a b c : SubjAvg, decide (b.avg ≤ a.avg) = true →
      decide (c.avg ≤ b.avg) = true → decide (c.avg ≤ a.avg) = true := by
    intro a b c h1 h2
    exact decide_eq_true (le_trans (of_decide_eq_true h2) (of_decide_eq_true h1))
  have htotA : ∀ a b : SubjAvg, decide (a.avg ≤ b.avg) = true ∨ decide (b.avg ≤ a.avg) = true := by
    intro a b
    rcases le_total a.avg b.avg with h | h
    · exact Or.inl (decide_eq_true h)
    · exact Or.inr (decide_eq_true h)
  have htrA : ∀ a b c : SubjAvg, decide (a.avg ≤ b.avg) = true →
      decide (b.avg ≤ c.avg) = true → decide (a.avg ≤ c.avg) = true := by
    intro a b c h1 h2
    exact decide_eq_true (le_trans (of_decide_eq_true h1) (of_decide_eq_true h2))
  constructor
  · intro l
    refine ⟨?_, ?_, ?_, ?_, ?_, ?_⟩
    · exact (pairwise_stableSort htotD htrD _).imp (fun h => of_decide_eq_true h)
    · refine List.Pairwise.imp (fun h => of_decide_eq_true h) ?_
      exact List.Pairwise.sublist (List.take_sublist 5 _) (pairwise_stableSort htotA htrA _)
    · intro x hx
      have hx2 : x ∈ stableSort (fun a b => decide (a.avg ≤ b.avg))
          ((subjectAverages l).filter (fun s => decide (s.avg < 65))) :=
        (List.take_sublist 5 _).subset hx
      have hx3 := (mem_stableSort _ x _).mp hx2
      exact of_decide_eq_true (List.mem_filter.mp hx3).2
    · simp only [topWeakestSubjects, List.length_take]
      exact Nat.min_le_left 5 _
    · intro hq x hx hlt
      have hxf : x ∈ (subjectAverages l).filter (fun s => decide (s.avg < 65)) :=
        List.mem_filter.mpr ⟨hx, decide_eq_true hlt⟩
      unfold topWeakestSubjects
      rw [List.take_of_length_le (by rw [length_stableSort]; exact hq)]
      exact (mem_stableSort _ x _).mpr hxf
    · intro s hs hne
      have hf := findGroup_foldl s hs l []
      have h0 : findGroup s [] = none := rfl
      rw [h0] at hf
      simp only at hf
      rw [if_neg (by simpa [List.length_eq_zero] using hne)] at hf
      have hmem : (s, (subjPercents l s).sum, (subjPercents l s).length) ∈ groupBySubject l :=
        mem_of_findGroup s _ _ _ hf
      have hmap := List.mem_map_of_mem
        (fun g : String × ℚ × ℕ => (⟨g.1, round2 (g.2.1 / (g.2.2 : ℚ)), g.2.2⟩ : SubjAvg)) hmem
      exact (mem_stableSort _ _ _).mpr hmap
  · have hg : groupBySubject c8List = [("Control Systems", (150 : ℚ), 3)] := by
      norm_num [groupBySubject, c8List, groupStep, addToGroups, DEFAULT_MULTI_SUBJECT]
      intro h
      exact absurd h (by decide)
    have havg : subjectAverages c8List = [⟨"Control Systems", 50, 3⟩] := by
      simp only [subjectAverages, hg, List.map_cons, List.map_nil, stableSort, insertSorted]
      norm_num [round2, jsRound]
    refine ⟨havg, ?_⟩
    simp only [topWeakestSubjects, havg]
    norm_num [stableSort, insertSorted]

/-- C8 witness: the group-mean membership and the weakest-list completeness
instantiated on the three concrete Control Systems entries. -/
theorem C8_subject_aggregation_witness :
    ((⟨"Control Systems", round2 ((subjPercents c8List "Control Systems").sum /
        ((subjPercents c8List "Control Systems").length : ℚ)),
      (subjPercents c8List "Control Systems").length⟩ : SubjAvg) ∈ subjectAverages c8List) ∧
    (⟨"Control Systems", (50 : ℚ), 3⟩ : SubjAvg) ∈ topWeakestSubjects c8List := by
  constructor
  · refine (C8_subject_aggregation.1 c8List).2.2.2.2.2 "Control Systems" (by decide) ?_
    simp [subjPercents, c8List]
  · refine (C8_subject_aggregation.1 c8List).2.2.2.2.1 ?_ _ ?_ ?_
    · rw [C8_subject_aggregation.2.1]
      norm_num
    · rw [C8_subject_aggregation.2.1]
      exact List.mem_singleton.mpr rfl
    · norm_num

/-- C9: in the entry-form statistics, accuracy is
`correct / (correct + incorrect) * 100` when the attempted count is
positive and 0 otherwise, and the unattempted count is
`totalQuestions - (correct + incorrect)` floored at 0; in particular
correct 50, incorrect 10 and totalQuestions 65 give unattempted 5 and
accuracy 250/3, displayed as 83.3 after rounding to one decimal. -/
theorem C9_accuracy_and_unattempted :
    (∀ correct wrong totalQuestions : Option ℚ,
      (0 < correct.getD 0 + wrong.getD 0 →
        (statsOf correct wrong totalQuestions).accuracy =
          correct.getD 0 / (correct.getD 0 + wrong.getD 0) * 100) ∧
      (¬0 < correct.getD 0 + wrong.getD 0 →
        (statsOf correct wrong totalQuestions).accuracy = 0)) ∧
    (∀ (correct wrong : Option ℚ) (q : ℚ), q ≠ 0 →
      (statsOf correct wrong (some q)).unattempted =
        max (q - (correct.getD 0 + wrong.getD 0)) 0) ∧
    statsOf (some 50) (some 10) (some 65) =
      { accuracy := 250 / 3, accuracyFixed1 := 833 / 10, unattempted := 5 } := by
  refine ⟨?_, ?_, ?_⟩
  · intro correct wrong totalQuestions
    constructor
    · intro h
      simp only [statsOf, if_pos h]
    · intro h
      simp only [statsOf, if_neg h]
  · intro correct wrong q hq
    simp only [statsOf, if_neg hq]
    rcases le_or_lt 0 (q - (correct.getD 0 + wrong.getD 0)) with h | h
    · rw [if_pos h, max_eq_left h]
    · rw [if_neg (not_le.mpr h), max_eq_right (le_of_lt h)]
  · simp only [statsOf, jsToFixed1, jsRound, StatsResult.mk.injEq]
    norm_num

/-- C9 witness: the accuracy formula and the unattempted floor instantiated
at correct 50, incorrect 10, totalQuestions 65. -/
theorem C9_accuracy_and_unattempted_witness :
    (statsOf (some 50) (some 10) (some 65)).accuracy =
        (some (50 : ℚ)).getD 0 / ((some (50 : ℚ)).getD 0 + (some (10 : ℚ)).getD 0) * 100 ∧
      (statsOf (some 50) (some 10) (some 65)).unattempted =
        max ((65 : ℚ) - ((some (50 : ℚ)).getD 0 + (some (10 : ℚ)).getD 0)) 0 := by
  constructor
  · exact (C9_accuracy_and_unattempted.1 (some 50) (some 10) (some 65)).1 (by norm_num)
  · exact C9_accuracy_and_unattempted.2.1 (some 50) (some 10) 65 (by norm_num)

/-- C10: in the CSV export the six optional numeric fields render a stored
0 and a stored null both as the empty cell (so two distinct collections can
print identically, as the two concrete rows show), and `csvEscape` quotes a
value — doubling embedded quote characters — exactly when it contains a
comma, a newline, or a quote character, leaving every other value
unchanged. -/
theorem C10_csv_zero_null_and_escaping :
    (∀ v : Option ℚ, v = none ∨ v = some 0 → optCell v = "") ∧
    (c10ZeroEntry ≠ c10NullEntry ∧ csvRow c10ZeroEntry = csvRow c10NullEntry) ∧
    (∀ s : String,
      ((s.data.contains ',' || s.data.contains '\n' || s.data.contains '"') = false →
        csvEscape s = s) ∧
      ((s.data.contains ',' || s.data.contains '\n' || s.data.contains '"') = true →
        csvEscape s = String.mk ('"' :: (dubQuotes s.data ++ ['"'])) ∧ csvEscape s ≠ s)) := by
  refine ⟨?_, ⟨?_, ?_⟩, ?_⟩
  · rintro v (rfl | rfl) <;> simp [optCell]
  · intro h
    have hc := congrArg Entry.correctCount h
    simp [c10ZeroEntry, c10NullEntry] at hc
  · simp only [csvRow, csvCells, c10ZeroEntry, c10NullEntry, optCell]
    norm_num
  · intro s
    constructor
    · intro h
      unfold csvEscape
      rw [if_neg (by rw [h]; exact Bool.false_ne_true)]
    · intro h
      refine ⟨by unfold csvEscape; rw [if_pos h], ?_⟩
      intro heq
      unfold csvEscape at heq
      rw [if_pos h] at heq
      have hdata := congrArg String.data heq
      simp only [String.data] at hdata
      have hlen := congrArg List.length hdata
      simp only [List.length_cons, List.length_append, List.length_singleton] at hlen
      have := length_le_dubQuotes s.data
      omega

/-- C10 witness: the zero and null cells and the two escaping branches
instantiated at concrete values. -/
theorem C10_csv_zero_null_and_escaping_witness :
    optCell (some 0) = "" ∧
      csvEscape "a,b" = String.mk ('"' :: (dubQuotes "a,b".data ++ ['"'])) ∧
      csvEscape "ab" = "ab" := by
  refine ⟨?_, ?_, ?_⟩
  · exact C10_csv_zero_null_and_escaping.1 (some 0) (Or.inr rfl)
  · exact ((C10_csv_zero_null_and_escaping.2.2 "a,b").2 (by decide)).1
  · exact (C10_csv_zero_null_and_escaping.2.2 "ab").1 (by decide)

end GateTracker
